import Mathlib

/-!
Verification of the NUSGPA grade tracker (`src/app.py`).

The development shallowly embeds the analytics pipeline of the app
(sections 3, 4 and 7 of `app.py`): the `st.session_state.courses`
dataframe becomes a list of `Row`s, the pandas column computations
(`Calc_Credits`, `Quality_Points`), the `groupby("Semester")`
aggregation, the `cumsum` running totals, the `fillna(0)` GPA policy
and the honours-classification ladder become Lean functions on exact
rationals.  Pandas `NaN` cells are modelled by `Option ℚ` (a `none`
is skipped by `nansum`, like `Series.sum(skipna=True)`), and the
result of a pandas float division is modelled by `PFloat`, which
keeps the `NaN` / `±inf` distinction that `fillna` relies on.

The CSV import/export path (`pd.read_csv` / `DataFrame.to_csv` plus
the upload handler's required-column check and `astype(bool)`) is
embedded at the level of a column-oriented table of string fields;
pandas' per-column type inference (int, then float, then bool, else
string) is modelled explicitly because it is what decides whether the
round trip is lossless.
-/



/-- One row of the `st.session_state.courses` dataframe: the five
canonical columns `Course, Semester, Grade, Credits, SU_Opt_Out`. -/
structure Row where
  course : String
  semester : Int
  grade : String
  credits : ℚ
  su_opt_out : Bool
deriving DecidableEq

/-- The `grade_map` dict of `app.py`, in source order. -/
def grade_pairs : List (String × ℚ) :=
  [("A+", 5), ("A", 5), ("A-", 9/2),
   ("B+", 4), ("B", 7/2), ("B-", 3),
   ("C+", 5/2), ("C", 2), ("D+", 3/2),
   ("D", 1), ("F", 0),
   ("CS", 0), ("CU", 0), ("IP", 0)]

/-- Dictionary lookup in `grade_map`; `none` plays the role of the NaN
that `df["Grade"].map(grade_map)` produces for an unmapped string. -/
def grade_map (g : String) : Option ℚ :=
  grade_pairs.lookup g

/-- The `sem_mapping` dict of `app.py` (label to integer term code). -/
def sem_pairs : List (String × Int) :=
  [("Y1 S1", 1), ("Y1 S2", 2),
   ("Y2 S1", 3), ("Y2 S2", 4),
   ("Y3 S1", 5), ("Y3 S2", 6),
   ("Y4 S1", 7), ("Y4 S2", 8),
   ("Y5 S1", 9), ("Y5 S2", 10),
   ("Y6 S1", 11), ("Y6 S2", 12),
   ("Special Term", 99)]

/-- `sem_mapping.get(label)`. -/
def sem_mapping (s : String) : Option Int :=
  sem_pairs.lookup s

/-- `NON_GPA_GRADES = ["CS", "CU", "IP"]`. -/
def NON_GPA_GRADES : List String := ["CS", "CU", "IP"]

/-- The `Calc_Credits` column: `0 if (x["SU_Opt_Out"] or x["Grade"] in
NON_GPA_GRADES) else x["Credits"]`. -/
def Calc_Credits (r : Row) : ℚ :=
  if r.su_opt_out || NON_GPA_GRADES.contains r.grade then 0 else r.credits

/-- The `Quality_Points` column: `Grade Value * Calc_Credits`.  A NaN
grade value (unmapped grade string) propagates to a NaN product, hence
`Option`. -/
def Quality_Points (r : Row) : Option ℚ :=
  (grade_map r.grade).map (fun v => v * Calc_Credits r)

/-- pandas `Series.sum()` with its default `skipna=True`: NaN entries
are dropped, and the sum of an all-NaN (or empty) series is `0.0`. -/
def nansum (l : List (Option ℚ)) : ℚ :=
  (l.filterMap id).sum

/-- The rows of one `groupby("Semester")` group. -/
def rowsOfTerm (df : List Row) (t : Int) : List Row :=
  df.filter (fun r => r.semester = t)

/-- `x["Calc_Credits"].sum()` for the group of term `t` ("Term Credits"). -/
def termCredits (df : List Row) (t : Int) : ℚ :=
  ((rowsOfTerm df t).map Calc_Credits).sum

/-- `x["Quality_Points"].sum()` for the group of term `t` ("Term Points"). -/
def termPoints (df : List Row) (t : Int) : ℚ :=
  nansum ((rowsOfTerm df t).map Quality_Points)

/-- `len(x)` for the group of term `t` ("Mods"). -/
def modCount (df : List Row) (t : Int) : ℕ :=
  (rowsOfTerm df t).length

/-- Values of a pandas float cell: an ordinary (exact) value, an
infinity, or NaN. -/
inductive PFloat where
  | val (q : ℚ)
  | posInf
  | negInf
  | nan
deriving DecidableEq

/-- pandas float division: `0/0` is NaN, `p/0` with `p ≠ 0` is a signed
infinity, and otherwise the quotient is exact. -/
def pdiv (p c : ℚ) : PFloat :=
  if c = 0 then (if p = 0 then .nan else if 0 < p then .posInf else .negInf)
  else .val (p / c)

/-- `Series.fillna(0)`: replaces NaN (and only NaN) by `0`. -/
def fillna0 : PFloat → PFloat
  | .nan => .val 0
  | x => x

/-- Float comparison `g >= t`: NaN compares false, `inf` true, `-inf`
false. -/
def PFloat.geq : PFloat → ℚ → Bool
  | .val q, t => decide (t ≤ q)
  | .posInf, _ => true
  | .negInf, _ => false
  | .nan, _ => false

/-- One row of the `summary` dataframe of `app.py` together with its
cumulative columns. -/
structure TermSummary where
  semester : Int
  termCredits : ℚ
  termPoints : ℚ
  mods : ℕ
  semGpa : PFloat
  cumPoints : ℚ
  cumCredits : ℚ
  cumGpa : PFloat
deriving DecidableEq

/-- The distinct `Semester` values in ascending order: `groupby` sorts
its keys. -/
def sortedTerms (df : List Row) : List Int :=
  List.insertionSort (· ≤ ·) (df.map (fun r => r.semester)).dedup

/-- Builds the summary rows for the given (sorted) term keys, carrying
the running `cumsum` accumulators for credits and points. -/
def mkSummaries (df : List Row) : List Int → ℚ → ℚ → List TermSummary
  | [], _, _ => []
  | t :: ts, cc, cp =>
    let tc := termCredits df t
    let tp := termPoints df t
    { semester := t
      termCredits := tc
      termPoints := tp
      mods := modCount df t
      semGpa := fillna0 (pdiv tp tc)
      cumPoints := cp + tp
      cumCredits := cc + tc
      cumGpa := fillna0 (pdiv (cp + tp) (cc + tc)) } :: mkSummaries df ts (cc + tc) (cp + tp)

/-- The `summary` dataframe: `groupby("Semester")` aggregation, `cumsum`
running totals, and the two `fillna(0)` GPA columns. -/
def summarize (df : List Row) : List TermSummary :=
  mkSummaries df (sortedTerms df) 0 0

/-- The honours bands of the classification ladder in `app.py`. -/
inductive Honours where
  | firstClassHonours
  | secondUpper
  | secondLower
  | thirdClass
  | pass
  | belowReq
deriving DecidableEq

/-- The `if current_gpa >= 4.5: ... else: ...` ladder of `app.py`. -/
def classLabel (g : PFloat) : Honours :=
  if g.geq (9/2) then .firstClassHonours
  else if g.geq 4 then .secondUpper
  else if g.geq (7/2) then .secondLower
  else if g.geq 3 then .thirdClass
  else if g.geq 2 then .pass
  else .belowReq

/-- `current_gpa = summary.iloc[-1]["Cumulative GPA"]` followed by the
ladder; `app.py` only computes it when the ledger is non-empty, hence
the `Option`. -/
def currentClassification (df : List Row) : Option Honours :=
  ((summarize df).getLast?).map (fun s => classLabel s.cumGpa)

/-- The input-form slice of `st.session_state` read and written by
`add_course_callback`. -/
structure FormState where
  course_name_input : String
  sem_input_label : String
  grade_input : String
  credits_input : ℚ
  su_input : Bool
  search_selection : Option String
deriving DecidableEq

/-- `final_name = name if name else (st.session_state.search_selection
if st.session_state.search_selection else "Unknown Course")` with
Python truthiness (`None` and `""` are falsy). -/
def final_name (fs : FormState) : String :=
  if fs.course_name_input ≠ "" then fs.course_name_input
  else
    match fs.search_selection with
    | some s => if s ≠ "" then s else "Unknown Course"
    | none => "Unknown Course"

/-- `add_course_callback`: appends the new row built from the form and
clears the course-name input and the search selection. -/
def add_course_callback (courses : List Row) (fs : FormState) : List Row × FormState :=
  let sem_int := (sem_mapping fs.sem_input_label).getD 1
  let newRow : Row :=
    { course := final_name fs
      semester := sem_int
      grade := fs.grade_input
      credits := fs.credits_input
      su_opt_out := fs.su_input }
  (courses ++ [newRow], { fs with course_name_input := "", search_selection := none })

/-!  ## CSV import/export

`app.py` persists the ledger with `DataFrame.to_csv(index=False)` and
re-imports it with `pd.read_csv` followed by a required-column check
and `astype(bool)` on `SU_Opt_Out`.  The delimited text is modelled as
a column-oriented table of string fields (header name together with
the column's cells); the row/column serialisation itself is the thin
glue the spec leaves out of scope.  What is modelled exactly is the
part that decides losslessness: the textual rendering of each cell and
pandas' per-column type inference (all-int, else all-float, else
all-bool-literal, else string). -/

/-- A typed cell of the session dataframe. -/
inductive Cell where
  | str (s : String)
  | intv (n : Int)
  | floatv (q : ℚ)
  | boolv (b : Bool)
deriving DecidableEq

/-- Decimal digits of `n`, least significant first; `fuel`-structured so
that it evaluates by kernel reduction (`fuel ≥ n` suffices). -/
def natDigitsRevAux : ℕ → ℕ → List Char
  | 0, n => [Nat.digitChar n]
  | fuel + 1, n =>
    if n < 10 then [Nat.digitChar n]
    else Nat.digitChar (n % 10) :: natDigitsRevAux fuel (n / 10)

/-- Decimal digits of `n`, least significant first. -/
def natDigitsRev (n : ℕ) : List Char :=
  natDigitsRevAux n n

/-- Decimal rendering of a natural number. -/
def natRepr (n : ℕ) : List Char :=
  (natDigitsRev n).reverse

/-- Decimal rendering of an integer. -/
def intRepr (n : Int) : String :=
  String.mk ((if n < 0 then ['-'] else []) ++ natRepr n.natAbs)

/-- Value of a most-significant-first digit string. -/
def digitsVal (l : List Char) : ℕ :=
  l.foldl (fun a c => 10 * a + (c.toNat - 48)) 0

/-- Parses a non-empty all-digit string. -/
def parseNatL (l : List Char) : Option ℕ :=
  if !l.isEmpty && l.all (fun c => c.isDigit) then some (digitsVal l) else none

/-- Parses an optionally `-`-signed decimal integer, the way
`read_csv` decides that a field is an integer. -/
def parseIntL (l : List Char) : Option Int :=
  if l.head? = some '-' then (parseNatL l.tail).map (fun n => -(n : Int))
  else (parseNatL l).map (fun n => (n : Int))

/-- Splits a string at its first `'.'`, if any. -/
def breakDot : List Char → List Char × Option (List Char)
  | [] => ([], none)
  | c :: rest =>
    if c = '.' then ([], some rest)
    else
      let p := breakDot rest
      (c :: p.1, p.2)

/-- Parses an optionally signed decimal numeral with at most one `'.'`,
the way `read_csv` decides that a field is a float. -/
def parseFloatL (l : List Char) : Option ℚ :=
  let sign := l.head? = some '-'
  let l' := if sign then l.tail else l
  let p := breakDot l'
  match p.2 with
  | none => (parseNatL p.1).map (fun n => if sign then -(n : ℚ) else (n : ℚ))
  | some b =>
    if (p.1.all (fun c => c.isDigit) && b.all (fun c => c.isDigit))
        && !(p.1.isEmpty && b.isEmpty) then
      let v : ℚ := (digitsVal p.1 : ℚ) + (digitsVal b : ℚ) / 10 ^ b.length
      some (if sign then -v else v)
    else none

/-- Number of times `p` divides `n` (fuel-structured, `fuel ≥ n`
suffices for the intended call). -/
def countFacAux : ℕ → ℕ → ℕ → ℕ
  | 0, _, _ => 0
  | fuel + 1, p, n =>
    if 2 ≤ p ∧ p ∣ n ∧ 2 ≤ n then 1 + countFacAux fuel p (n / p) else 0

/-- Exponent such that a denominator of the form `2^a * 5^b` divides
`10 ^ decExp d`. -/
def decExp (d : ℕ) : ℕ :=
  countFacAux d 2 d + countFacAux d 5 d

/-- `q` has a finite decimal expansion.  Every credit value that a
binary float can hold satisfies this (its denominator is a power of
two). -/
def IsDecimal (q : ℚ) : Prop :=
  q.den ∣ 10 ^ decExp q.den

instance (q : ℚ) : Decidable (IsDecimal q) := by
  unfold IsDecimal
  infer_instance

/-- Left-pads a digit string with `'0'` to length `e`. -/
def padZeros (l : List Char) (e : ℕ) : List Char :=
  List.replicate (e - l.length) '0' ++ l

/-- Decimal rendering of a float cell, always with a fractional part,
as `to_csv` prints a float (`4.0`, `-3.5`, ...).  For a value without
a finite decimal expansion the rendering is inexact; the source never
stores such a value in a float cell. -/
def floatRepr (q : ℚ) : String :=
  let e := max (decExp q.den) 1
  let m := q.num.natAbs * (10 ^ e / q.den)
  let ip := natRepr (m / 10 ^ e)
  let fp := padZeros (natRepr (m % 10 ^ e)) e
  String.mk ((if q.num < 0 then ['-'] else []) ++ ip ++ '.' :: fp)

/-- `to_csv` rendering of one cell. -/
def cellToCsv : Cell → String
  | .str s => s
  | .intv n => intRepr n
  | .floatv q => floatRepr q
  | .boolv b => if b then "True" else "False"

/-- `read_csv` column type inference: a column is integer if every
field parses as an integer, else float if every field parses as a
float, else boolean if every field is a boolean literal, else it stays
a string column. -/
def inferCol (cells : List String) : List Cell :=
  if cells.all (fun s => (parseIntL s.data).isSome) then
    cells.map (fun s => .intv ((parseIntL s.data).getD 0))
  else if cells.all (fun s => (parseFloatL s.data).isSome) then
    cells.map (fun s => .floatv ((parseFloatL s.data).getD 0))
  else if cells.all (fun s => s == "True" || s == "False") then
    cells.map (fun s => .boolv (s == "True"))
  else
    cells.map .str

/-- `Series.astype(bool)`: booleans unchanged, numbers by non-zeroness,
strings by non-emptiness. -/
def astypeBool : Cell → Cell
  | .boolv b => .boolv b
  | .intv n => .boolv (decide (n ≠ 0))
  | .floatv q => .boolv (decide (q ≠ 0))
  | .str s => .boolv (decide (s ≠ ""))

/-- `REQUIRED_COLUMNS` of the upload handler. -/
def REQUIRED_COLUMNS : List String :=
  ["Course", "Semester", "Grade", "Credits", "SU_Opt_Out"]

/-- `REQUIRED_COLUMNS.issubset(df_uploaded.columns)`. -/
def hasRequired (doc : List (String × List String)) : Bool :=
  REQUIRED_COLUMNS.all (fun c => (doc.map Prod.fst).contains c)

/-- The dataframe built from an accepted upload: every column goes
through type inference, and `SU_Opt_Out` additionally through
`astype(bool)`. -/
def importedDF (doc : List (String × List String)) : List (String × List Cell) :=
  doc.map (fun col =>
    (col.1, if col.1 = "SU_Opt_Out" then (inferCol col.2).map astypeBool else inferCol col.2))

/-- The upload handler's outcome: `none` models the
`st.error("Invalid File! Missing columns: ...")` branch. -/
def importCsv (doc : List (String × List String)) : Option (List (String × List Cell)) :=
  if hasRequired doc then some (importedDF doc) else none

/-- The state transition of the upload handler on
`st.session_state.courses`: replaced wholesale on success, untouched on
a failed column check. -/
def uploadHandler (ledger : List (String × List Cell)) (doc : List (String × List String)) :
    List (String × List Cell) :=
  (importCsv doc).getD ledger

/-- `st.session_state.courses.to_csv(index=False)`, as a column table
of rendered fields. -/
def exportCsv (df : List (String × List Cell)) : List (String × List String) :=
  df.map (fun col => (col.1, col.2.map cellToCsv))

/-- The session dataframe corresponding to a list of typed rows. -/
def toDF (rows : List Row) : List (String × List Cell) :=
  [("Course", rows.map (fun r => .str r.course)),
   ("Semester", rows.map (fun r => .intv r.semester)),
   ("Grade", rows.map (fun r => .str r.grade)),
   ("Credits", rows.map (fun r => .floatv r.credits)),
   ("SU_Opt_Out", rows.map (fun r => .boolv r.su_opt_out))]

def wDf2 : List Row := [⟨"SU1", 1, "CS", 4, false⟩]

def wSum2 : TermSummary := ⟨1, 0, 0, 1, .val 0, 0, 0, .val 0⟩

/-- The filter of the claimed summation rule: keep a row iff it is not
S/U-opted-out and its grade is not a non-grade-point marker. -/
def keepRow (r : Row) : Bool :=
  !r.su_opt_out && !(NON_GPA_GRADES.contains r.grade)

def wDf1 : List Row :=
  [⟨"CS1010", 1, "A", 4, false⟩, ⟨"MA1521", 1, "B+", 4, false⟩]

def wSum1 : TermSummary := ⟨1, 8, 36, 2, .val (9/2), 36, 8, .val (9/2)⟩

def cexDf4 : List Row := [⟨"GHOST", 1, "ZZ", 4, false⟩]

def wDf7 : List Row :=
  [⟨"A1", 99, "A", 4, false⟩, ⟨"B1", 3, "B", 4, false⟩, ⟨"C1", 3, "A", 4, false⟩]

/-- Modelled from the spec: the honours threshold table of section 6,
evaluated top-down with inclusive lower bounds, first match wins. -/
def specThresholds : List (ℚ × Honours) :=
  [(9/2, .firstClassHonours), (4, .secondUpper), (7/2, .secondLower),
   (3, .thirdClass), (2, .pass)]

/-- Modelled from the spec: classification of a cumulative GPA through
the ordered threshold table, defaulting to the below-requirement band. -/
def specClassify (g : ℚ) : Honours :=
  ((specThresholds.find? (fun p => decide (p.1 ≤ g))).map Prod.snd).getD .belowReq

def wFs10 : FormState := ⟨"", "Y1 S2", "A-", 4, false, some "CS1010: Programming Methodology"⟩

def cexDoc6 : List (String × List String) :=
  [("Course", ["CS1010"]), ("Semester", ["1"]), ("Grade", ["A"]), ("SU_Opt_Out", ["False"]),
   ("Extra", ["x"])]

def cexDoc5 : List (String × List String) :=
  [("Course", ["X1"]), ("Semester", ["1"]), ("Grade", ["ZZ"]),
   ("Credits", ["-3.0"]), ("SU_Opt_Out", ["False"])]

/-- The Course column survives re-import as strings: pandas must not
infer it as an all-integer, all-float or all-boolean column (a purely
numeric course name would come back as a number), and no name is empty
(an empty field re-imports as NaN, which the cell model excludes). -/
def courseColOk (names : List String) : Prop :=
  names.all (fun s => (parseIntL s.data).isSome) = false ∧
  names.all (fun s => (parseFloatL s.data).isSome) = false ∧
  names.all (fun s => s == "True" || s == "False") = false ∧
  "" ∉ names

/-- Well-formedness of a ledger row per the spec's data model:
nonnegative credits, a grade from the fixed enumeration, and a credit
value representable as a finite decimal (every binary float is). -/
def wellFormedRow (r : Row) : Prop :=
  0 ≤ r.credits ∧ (grade_map r.grade).isSome = true ∧ IsDecimal r.credits

def cexDf9 : List Row := [⟨"123", 1, "A", 4, false⟩]

instance (r : Row) : Decidable (wellFormedRow r) := by
  unfold wellFormedRow
  infer_instance

instance (names : List String) : Decidable (courseColOk names) := by
  unfold courseColOk
  infer_instance

def wDf9 : List Row := [⟨"CS1010", 1, "A", 4, false⟩]

lemma calcCredits_nonneg {r : Row} (h : 0 ≤ r.credits) : 0 ≤ Calc_Credits r := by
  unfold Calc_Credits
  split
  · exact le_refl 0
  · exact h

lemma termCredits_nonneg {df : List Row} (h : ∀ r ∈ df, 0 ≤ r.credits) (t : Int) :
    0 ≤ termCredits df t := by
  apply List.sum_nonneg
  intro x hx
  obtain ⟨r, hr, rfl⟩ := List.mem_map.mp hx
  exact calcCredits_nonneg (h r (List.mem_of_mem_filter hr))

lemma quality_of_calc_zero {r : Row} (h : Calc_Credits r = 0) :
    Quality_Points r = none ∨ Quality_Points r = some 0 := by
  unfold Quality_Points
  cases hg : grade_map r.grade with
  | none => exact Or.inl rfl
  | some v => exact Or.inr (by simp [h])

lemma nansum_points_zero (l : List Row) (h : ∀ r ∈ l, 0 ≤ r.credits)
    (h0 : (l.map Calc_Credits).sum = 0) : nansum (l.map Quality_Points) = 0 := by
  induction l with
  | nil => rfl
  | cons r l ih =>
    have hr : 0 ≤ Calc_Credits r := calcCredits_nonneg (h r (List.mem_cons_self r l))
    have hl : 0 ≤ (l.map Calc_Credits).sum := by
      apply List.sum_nonneg
      intro x hx
      obtain ⟨a, ha, rfl⟩ := List.mem_map.mp hx
      exact calcCredits_nonneg (h a (List.mem_cons_of_mem r ha))
    rw [List.map_cons, List.sum_cons] at h0
    have hc0 : Calc_Credits r = 0 := le_antisymm (by linarith) hr
    have hs0 : (l.map Calc_Credits).sum = 0 := le_antisymm (by linarith) hl
    have ih' := ih (fun a ha => h a (List.mem_cons_of_mem r ha)) hs0
    rcases quality_of_calc_zero hc0 with hq | hq <;>
      simp [nansum, List.filterMap_cons, hq] at ih' ⊢ <;> simpa using ih'

lemma termPoints_zero_of_credits_zero {df : List Row} (h : ∀ r ∈ df, 0 ≤ r.credits)
    {t : Int} (h0 : termCredits df t = 0) : termPoints df t = 0 :=
  nansum_points_zero _ (fun r hr => h r (List.mem_of_mem_filter hr)) h0

lemma mkSummaries_mem_shape (df : List Row) :
    ∀ (ts : List Int) (cc cp : ℚ) (s : TermSummary), s ∈ mkSummaries df ts cc cp →
      s.termCredits = termCredits df s.semester ∧
      s.termPoints = termPoints df s.semester ∧
      s.mods = modCount df s.semester ∧
      s.semGpa = fillna0 (pdiv s.termPoints s.termCredits) ∧
      s.cumGpa = fillna0 (pdiv s.cumPoints s.cumCredits) ∧
      s.semester ∈ ts := by
  intro ts
  induction ts with
  | nil => intro cc cp s hs; simp [mkSummaries] at hs
  | cons t ts ih =>
    intro cc cp s hs
    rw [mkSummaries] at hs
    rcases List.mem_cons.mp hs with rfl | hs'
    · exact ⟨rfl, rfl, rfl, rfl, rfl, List.mem_cons_self _ _⟩
    · obtain ⟨h1, h2, h3, h4, h5, h6⟩ := ih _ _ s hs'
      exact ⟨h1, h2, h3, h4, h5, List.mem_cons_of_mem _ h6⟩

lemma mkSummaries_inv (df : List Row) (hc : ∀ r ∈ df, 0 ≤ r.credits) :
    ∀ (ts : List Int) (cc cp : ℚ), 0 ≤ cc → (cc = 0 → cp = 0) →
      ∀ s ∈ mkSummaries df ts cc cp,
        0 ≤ s.termCredits ∧ (s.termCredits = 0 → s.termPoints = 0) ∧
        0 ≤ s.cumCredits ∧ (s.cumCredits = 0 → s.cumPoints = 0) := by
  intro ts
  induction ts with
  | nil => intro cc cp _ _ s hs; simp [mkSummaries] at hs
  | cons t ts ih =>
    intro cc cp hcc hcp s hs
    have htc : 0 ≤ termCredits df t := termCredits_nonneg hc t
    have hccs : 0 ≤ cc + termCredits df t := by linarith
    have hzero : cc + termCredits df t = 0 → cp + termPoints df t = 0 := by
      intro h0
      have h1 : cc = 0 := le_antisymm (by linarith) hcc
      have h2 : termCredits df t = 0 := by linarith
      rw [hcp h1, termPoints_zero_of_credits_zero hc h2, add_zero]
    rw [mkSummaries] at hs
    rcases List.mem_cons.mp hs with rfl | hs'
    · refine ⟨htc, ?_, hccs, hzero⟩
      intro h0
      exact termPoints_zero_of_credits_zero hc h0
    · exact ih _ _ hccs hzero s hs'

/-- Claim C2: for every ledger satisfying the data-model invariant
`credits >= 0`, term and cumulative GPA equal quality points divided
by credit-bearing credits whenever the denominator is nonzero, are
defined to be `0` (never an error and never an infinity) when the
denominator is zero, and a term whose rows are all opted-out or
marker-graded has zero credit-bearing credits, zero term GPA, and
contributes zero to the cumulative totals. -/
theorem term_gpa_division_policy (df : List Row) (hc : ∀ r ∈ df, 0 ≤ r.credits) :
    ∀ s ∈ summarize df,
      (s.termCredits ≠ 0 → s.semGpa = .val (s.termPoints / s.termCredits)) ∧
      (s.termCredits = 0 → s.semGpa = .val 0) ∧
      (s.cumCredits ≠ 0 → s.cumGpa = .val (s.cumPoints / s.cumCredits)) ∧
      (s.cumCredits = 0 → s.cumGpa = .val 0) ∧
      (∃ q, s.semGpa = .val q) ∧ (∃ q, s.cumGpa = .val q) ∧
      ((∀ r ∈ rowsOfTerm df s.semester, r.su_opt_out = true ∨ r.grade ∈ NON_GPA_GRADES) →
        s.termCredits = 0 ∧ s.termPoints = 0 ∧ s.semGpa = .val 0) := by
  intro s hs
  obtain ⟨e1, e2, -, e4, e5, -⟩ := mkSummaries_mem_shape df _ 0 0 s hs
  obtain ⟨i1, i2, -, i4⟩ :=
    mkSummaries_inv df hc _ 0 0 (le_refl 0) (fun _ => rfl) s hs
  have sem0 : s.termCredits = 0 → s.semGpa = .val 0 := by
    intro h0
    rw [e4, h0, i2 h0]
    rfl
  have cum0 : s.cumCredits = 0 → s.cumGpa = .val 0 := by
    intro h0
    rw [e5, h0, i4 h0]
    rfl
  have semV : s.termCredits ≠ 0 → s.semGpa = .val (s.termPoints / s.termCredits) := by
    intro h0
    rw [e4, pdiv, if_neg h0]
    rfl
  have cumV : s.cumCredits ≠ 0 → s.cumGpa = .val (s.cumPoints / s.cumCredits) := by
    intro h0
    rw [e5, pdiv, if_neg h0]
    rfl
  refine ⟨semV, sem0, cumV, cum0, ?_, ?_, ?_⟩
  · by_cases h0 : s.termCredits = 0
    · exact ⟨0, sem0 h0⟩
    · exact ⟨_, semV h0⟩
  · by_cases h0 : s.cumCredits = 0
    · exact ⟨0, cum0 h0⟩
    · exact ⟨_, cumV h0⟩
  · intro hall
    have h0 : s.termCredits = 0 := by
      rw [e1]
      apply List.sum_eq_zero
      intro x hx
      obtain ⟨r, hr, rfl⟩ := List.mem_map.mp hx
      rcases hall r hr with h | h
      · simp [Calc_Credits, h]
      · simp [Calc_Credits, h]
    exact ⟨h0, i2 h0, sem0 h0⟩

theorem term_gpa_division_policy_witness :
    (wSum2.termCredits ≠ 0 → wSum2.semGpa = .val (wSum2.termPoints / wSum2.termCredits)) ∧
    (wSum2.termCredits = 0 → wSum2.semGpa = .val 0) ∧
    (wSum2.cumCredits ≠ 0 → wSum2.cumGpa = .val (wSum2.cumPoints / wSum2.cumCredits)) ∧
    (wSum2.cumCredits = 0 → wSum2.cumGpa = .val 0) ∧
    (∃ q, wSum2.semGpa = .val q) ∧ (∃ q, wSum2.cumGpa = .val q) ∧
    ((∀ r ∈ rowsOfTerm wDf2 wSum2.semester, r.su_opt_out = true ∨ r.grade ∈ NON_GPA_GRADES) →
      wSum2.termCredits = 0 ∧ wSum2.termPoints = 0 ∧ wSum2.semGpa = .val 0) :=
  term_gpa_division_policy wDf2 (by norm_num [wDf2]) wSum2
    (by simp [wDf2, wSum2, summarize, mkSummaries, sortedTerms, termCredits, termPoints,
      modCount, rowsOfTerm, Calc_Credits, Quality_Points, grade_map, grade_pairs,
      NON_GPA_GRADES, nansum, pdiv, fillna0, List.lookup])

lemma calc_eq_credits_of_keep {r : Row} (h : keepRow r = true) :
    Calc_Credits r = r.credits := by
  simp only [keepRow, Bool.and_eq_true, Bool.not_eq_true'] at h
  unfold Calc_Credits
  rw [h.1, h.2]
  rfl

lemma calc_eq_zero_of_not_keep {r : Row} (h : keepRow r = false) :
    Calc_Credits r = 0 := by
  simp only [keepRow, Bool.and_eq_false_iff, Bool.not_eq_false'] at h
  unfold Calc_Credits
  rcases h with h | h <;> rw [h] <;> simp

lemma calc_filter_sum (l : List Row) :
    (l.map Calc_Credits).sum = ((l.filter keepRow).map (fun r => r.credits)).sum := by
  induction l with
  | nil => rfl
  | cons r l ih =>
    cases hk : keepRow r with
    | true => simp [List.filter_cons, hk, calc_eq_credits_of_keep hk, ih]
    | false => simp [List.filter_cons, hk, calc_eq_zero_of_not_keep hk, ih]

lemma nonGpa_isSome {g : String} (h : NON_GPA_GRADES.contains g = true) :
    (grade_map g).isSome := by
  have hmem : g = "CS" ∨ g = "CU" ∨ g = "IP" := by
    simpa [NON_GPA_GRADES] using h
  rcases hmem with rfl | rfl | rfl <;> decide

lemma qp_filter_sum (l : List Row) (hg : ∀ r ∈ l, (grade_map r.grade).isSome) :
    nansum (l.map Quality_Points) =
      ((l.filter keepRow).map (fun r => r.credits * (grade_map r.grade).getD 0)).sum := by
  induction l with
  | nil => rfl
  | cons r l ih =>
    obtain ⟨v, hv⟩ := Option.isSome_iff_exists.mp (hg r (List.mem_cons_self r l))
    have ih' := ih (fun a ha => hg a (List.mem_cons_of_mem r ha))
    cases hk : keepRow r with
    | true =>
      have hq : Quality_Points r = some (v * r.credits) := by
        simp [Quality_Points, hv, calc_eq_credits_of_keep hk]
      simp [List.filter_cons, hk, nansum, List.filterMap_cons, hq, hv] at ih' ⊢
      rw [ih']
      ring_nf
    | false =>
      have hq : Quality_Points r = some 0 := by
        simp [Quality_Points, hv, calc_eq_zero_of_not_keep hk]
      simp [List.filter_cons, hk, nansum, List.filterMap_cons, hq] at ih' ⊢
      exact ih'

/-- Claim C1: for every ledger whose grades are all in the fixed
enumeration and every term in it, the term's credit-bearing credits
equal the sum of `credits` over exactly the rows of that term that are
neither S/U-opted-out nor marker-graded, the quality points equal the
sum of `credits * grade_point` over the same filtered rows, and every
excluded row contributes zero to both sums. -/
theorem credit_bearing_filter_rule (df : List Row)
    (hg : ∀ r ∈ df, (grade_map r.grade).isSome) :
    ∀ s ∈ summarize df,
      s.termCredits = (((rowsOfTerm df s.semester).filter keepRow).map
        (fun r => r.credits)).sum ∧
      s.termPoints = (((rowsOfTerm df s.semester).filter keepRow).map
        (fun r => r.credits * (grade_map r.grade).getD 0)).sum ∧
      (∀ r ∈ rowsOfTerm df s.semester, keepRow r = false →
        Calc_Credits r = 0 ∧ Quality_Points r = some 0) := by
  intro s hs
  obtain ⟨e1, e2, -, -, -, -⟩ := mkSummaries_mem_shape df _ 0 0 s hs
  have hg' : ∀ r ∈ rowsOfTerm df s.semester, (grade_map r.grade).isSome :=
    fun r hr => hg r (List.mem_of_mem_filter hr)
  refine ⟨?_, ?_, ?_⟩
  · rw [e1, termCredits, calc_filter_sum]
  · rw [e2, termPoints, qp_filter_sum _ hg']
  · intro r hr hk
    obtain ⟨v, hv⟩ := Option.isSome_iff_exists.mp (hg' r hr)
    exact ⟨calc_eq_zero_of_not_keep hk,
      by simp [Quality_Points, hv, calc_eq_zero_of_not_keep hk]⟩

theorem credit_bearing_filter_rule_witness :
    wSum1.termCredits = (((rowsOfTerm wDf1 wSum1.semester).filter keepRow).map
      (fun r => r.credits)).sum ∧
    wSum1.termPoints = (((rowsOfTerm wDf1 wSum1.semester).filter keepRow).map
      (fun r => r.credits * (grade_map r.grade).getD 0)).sum ∧
    (∀ r ∈ rowsOfTerm wDf1 wSum1.semester, keepRow r = false →
      Calc_Credits r = 0 ∧ Quality_Points r = some 0) :=
  credit_bearing_filter_rule wDf1 (by decide) wSum1
    (by simp [wDf1, wSum1, summarize, mkSummaries, sortedTerms, termCredits, termPoints,
      modCount, rowsOfTerm, Calc_Credits, Quality_Points, grade_map, grade_pairs,
      NON_GPA_GRADES, nansum, pdiv, fillna0, List.lookup]
        norm_num)

/-- Claim C4, counterexample: the claim says a row with a grade
outside the fixed enumeration is excluded from the credit-bearing
totals, but a one-row ledger with unknown grade "ZZ" and 4 credits
yields `credit_bearing_credits = 4`, not 0 (only the quality points
vanish, because the NaN product is skipped by the sum). -/
theorem unrecognized_grade_counterexample :
    grade_map "ZZ" = none ∧ termCredits cexDf4 1 = 4 ∧ termCredits cexDf4 1 ≠ 0 ∧
      termPoints cexDf4 1 = 0 := by
  refine ⟨rfl, ?_, ?_, ?_⟩ <;>
    simp [cexDf4, termCredits, termPoints, rowsOfTerm, Calc_Credits, Quality_Points,
      grade_map, grade_pairs, NON_GPA_GRADES, nansum, List.lookup]

/-- Claim C4, amended: a row whose grade is outside the fixed
enumeration is treated as contributing zero quality points (its NaN
`Quality_Points` is dropped by the skipna sum), but when not
S/U-opted-out its credits are included, not excluded, in
`Calc_Credits` and hence in the credit-bearing totals. -/
theorem unrecognized_grade_contribution (r : Row) (hg : grade_map r.grade = none)
    (hsu : r.su_opt_out = false) :
    Calc_Credits r = r.credits ∧ Quality_Points r = none ∧
    ∀ l : List (Option ℚ), nansum (Quality_Points r :: l) = nansum l := by
  have hng : NON_GPA_GRADES.contains r.grade = false := by
    cases hq : NON_GPA_GRADES.contains r.grade
    · rfl
    · have hsome := nonGpa_isSome hq
      rw [hg] at hsome
      exact absurd hsome (by simp)
  have h1 : Calc_Credits r = r.credits := by
    unfold Calc_Credits
    rw [hsu, hng]
    rfl
  have h2 : Quality_Points r = none := by
    simp [Quality_Points, hg]
  exact ⟨h1, h2, fun l => by simp [nansum, List.filterMap_cons, h2]⟩

theorem unrecognized_grade_contribution_witness :
    Calc_Credits ⟨"GHOST", 1, "ZZ", 4, false⟩ = (4:ℚ) ∧
    Quality_Points ⟨"GHOST", 1, "ZZ", 4, false⟩ = none ∧
    nansum [Quality_Points ⟨"GHOST", 1, "ZZ", 4, false⟩, some 5] = nansum [some 5] := by
  have h := unrecognized_grade_contribution ⟨"GHOST", 1, "ZZ", 4, false⟩ rfl rfl
  exact ⟨h.1, h.2.1, h.2.2 [some 5]⟩

lemma mkSummaries_map_semester (df : List Row) :
    ∀ (ts : List Int) (cc cp : ℚ),
      (mkSummaries df ts cc cp).map (fun s => s.semester) = ts := by
  intro ts
  induction ts with
  | nil => intro cc cp; rfl
  | cons t ts ih => intro cc cp; simp [mkSummaries, ih]

lemma sortedTerms_sorted (df : List Row) : (sortedTerms df).Sorted (· ≤ ·) :=
  List.sorted_insertionSort _ _

lemma sortedTerms_nodup (df : List Row) : (sortedTerms df).Nodup :=
  ((List.perm_insertionSort _ _).nodup_iff).mpr (List.nodup_dedup _)

lemma mem_sortedTerms (df : List Row) (t : Int) :
    t ∈ sortedTerms df ↔ t ∈ df.map (fun r => r.semester) := by
  rw [sortedTerms, (List.perm_insertionSort _ _).mem_iff, List.mem_dedup]

lemma sortedTerms_sorted_lt (df : List Row) : (sortedTerms df).Sorted (· < ·) := by
  have h1 := sortedTerms_sorted df
  have h2 := sortedTerms_nodup df
  exact (h1.and h2).imp (fun hab => lt_of_le_of_ne hab.1 hab.2)

lemma mkSummaries_cum (df : List Row) :
    ∀ (ts : List Int) (cc cp : ℚ) (i : ℕ) (h : i < (mkSummaries df ts cc cp).length),
      ((mkSummaries df ts cc cp).get ⟨i, h⟩).cumCredits =
        cc + (((mkSummaries df ts cc cp).take (i + 1)).map (fun s => s.termCredits)).sum ∧
      ((mkSummaries df ts cc cp).get ⟨i, h⟩).cumPoints =
        cp + (((mkSummaries df ts cc cp).take (i + 1)).map (fun s => s.termPoints)).sum := by
  intro ts
  induction ts with
  | nil => intro cc cp i h; simp [mkSummaries] at h
  | cons t ts ih =>
    intro cc cp i h
    cases i with
    | zero => simp [mkSummaries]
    | succ i =>
      simp only [mkSummaries] at h ⊢
      have h' : i < (mkSummaries df ts (cc + termCredits df t) (cp + termPoints df t)).length := by
        simpa using h
      obtain ⟨ihc, ihp⟩ := ih (cc + termCredits df t) (cp + termPoints df t) i h'
      simp only [List.get_cons_succ, List.take_succ_cons, List.map_cons, List.sum_cons]
      constructor
      · rw [ihc]; ring
      · rw [ihp]; ring

/-- Claim C7: `summarize` produces exactly one summary per distinct
term value of the ledger (their term codes are strictly sorted
ascending, so "Special Term" = 99 always sorts last), and the
cumulative credit and point columns are the running sums of the
per-term values in that ascending order. -/
theorem summaries_sorted_cumulative (df : List Row) :
    ((summarize df).map (fun s => s.semester)).Sorted (· < ·) ∧
    (∀ t : Int, t ∈ (summarize df).map (fun s => s.semester) ↔
      t ∈ df.map (fun r => r.semester)) ∧
    ((summarize df).map (fun s => s.semester)).Nodup ∧
    ∀ (i : ℕ) (h : i < (summarize df).length),
      ((summarize df).get ⟨i, h⟩).cumCredits =
        (((summarize df).take (i + 1)).map (fun s => s.termCredits)).sum ∧
      ((summarize df).get ⟨i, h⟩).cumPoints =
        (((summarize df).take (i + 1)).map (fun s => s.termPoints)).sum := by
  have hmap := mkSummaries_map_semester df (sortedTerms df) 0 0
  refine ⟨?_, ?_, ?_, ?_⟩
  · rw [summarize, hmap]
    exact sortedTerms_sorted_lt df
  · intro t
    rw [summarize, hmap]
    exact mem_sortedTerms df t
  · rw [summarize, hmap]
    exact sortedTerms_nodup df
  · intro i h
    obtain ⟨hc, hp⟩ := mkSummaries_cum df (sortedTerms df) 0 0 i h
    exact ⟨by simp only [summarize] at h ⊢; rw [hc, zero_add],
           by simp only [summarize] at h ⊢; rw [hp, zero_add]⟩

theorem summaries_sorted_cumulative_witness :
    ((summarize wDf7).get ⟨1, by
        simp [wDf7, summarize, mkSummaries, sortedTerms]⟩).cumCredits =
      (((summarize wDf7).take 2).map (fun s => s.termCredits)).sum :=
  ((summaries_sorted_cumulative wDf7).2.2.2 1 (by
    simp [wDf7, summarize, mkSummaries, sortedTerms])).1

lemma termCredits_perm {df1 df2 : List Row} (hp : df1.Perm df2) (t : Int) :
    termCredits df1 t = termCredits df2 t :=
  ((hp.filter _).map _).sum_eq

lemma termPoints_perm {df1 df2 : List Row} (hp : df1.Perm df2) (t : Int) :
    termPoints df1 t = termPoints df2 t :=
  (((hp.filter _).map _).filterMap _).sum_eq

lemma modCount_perm {df1 df2 : List Row} (hp : df1.Perm df2) (t : Int) :
    modCount df1 t = modCount df2 t :=
  (hp.filter _).length_eq

lemma sortedTerms_perm_eq {df1 df2 : List Row} (hp : df1.Perm df2) :
    sortedTerms df1 = sortedTerms df2 := by
  apply List.eq_of_perm_of_sorted _ (sortedTerms_sorted df1) (sortedTerms_sorted df2)
  exact ((List.perm_insertionSort _ _).trans ((hp.map _).dedup)).trans
    (List.perm_insertionSort _ _).symm

lemma mkSummaries_congr {df1 df2 : List Row} (hp : df1.Perm df2) :
    ∀ (ts : List Int) (cc cp : ℚ), mkSummaries df1 ts cc cp = mkSummaries df2 ts cc cp := by
  intro ts
  induction ts with
  | nil => intro cc cp; rfl
  | cons t ts ih =>
    intro cc cp
    simp only [mkSummaries, termCredits_perm hp t, termPoints_perm hp t, modCount_perm hp t,
      ih]

/-- Claim C8: the summary — hence the cumulative GPA and the
classification — is invariant under any permutation of the ledger's
rows: only the grouping of rows by term value matters, not insertion
order. -/
theorem summarize_insertion_order_invariant (df1 df2 : List Row) (hp : df1.Perm df2) :
    summarize df1 = summarize df2 ∧
    currentClassification df1 = currentClassification df2 := by
  have hs : summarize df1 = summarize df2 := by
    rw [summarize, summarize, sortedTerms_perm_eq hp, mkSummaries_congr hp]
  exact ⟨hs, by rw [currentClassification, currentClassification, hs]⟩

theorem summarize_insertion_order_invariant_witness :
    summarize [(⟨"CS1010", 1, "A", 4, false⟩ : Row), ⟨"MA1521", 1, "B+", 4, false⟩] =
      summarize [(⟨"MA1521", 1, "B+", 4, false⟩ : Row), ⟨"CS1010", 1, "A", 4, false⟩] ∧
    currentClassification [(⟨"CS1010", 1, "A", 4, false⟩ : Row), ⟨"MA1521", 1, "B+", 4, false⟩] =
      currentClassification [(⟨"MA1521", 1, "B+", 4, false⟩ : Row), ⟨"CS1010", 1, "A", 4, false⟩] :=
  summarize_insertion_order_invariant _ _
    (List.Perm.swap (⟨"MA1521", 1, "B+", 4, false⟩ : Row) (⟨"CS1010", 1, "A", 4, false⟩ : Row) [])

lemma classLabel_eq_specClassify (q : ℚ) : classLabel (.val q) = specClassify q := by
  by_cases h1 : (9/2 : ℚ) ≤ q <;> by_cases h2 : (4 : ℚ) ≤ q <;>
    by_cases h3 : (7/2 : ℚ) ≤ q <;> by_cases h4 : (3 : ℚ) ≤ q <;>
    by_cases h5 : (2 : ℚ) ≤ q <;>
    simp [classLabel, specClassify, specThresholds, PFloat.geq, List.find?, h1, h2, h3, h4, h5]

lemma summarize_ne_nil {df : List Row} (h : df ≠ []) : summarize df ≠ [] := by
  have hst : sortedTerms df ≠ [] := by
    intro hst
    cases df with
    | nil => exact h rfl
    | cons r l =>
      have hmem : r.semester ∈ sortedTerms (r :: l) :=
        (mem_sortedTerms _ _).mpr (by simp)
      rw [hst] at hmem
      simp at hmem
  rw [summarize]
  cases hts : sortedTerms df with
  | nil => exact absurd hts hst
  | cons t ts => simp [mkSummaries]

lemma sorted_all_le_getLast :
    ∀ (l : List Int), l.Sorted (· ≤ ·) → ∀ x, l.getLast? = some x → ∀ t ∈ l, t ≤ x := by
  intro l
  induction l with
  | nil => intro _ x hx; simp at hx
  | cons a l ih =>
    intro hs x hx t ht
    cases l with
    | nil =>
      simp at hx ht
      rw [ht, hx]
    | cons b l' =>
      rw [List.getLast?_cons_cons] at hx
      rcases List.mem_cons.mp ht with rfl | ht'
      · obtain ⟨hne, hxeq⟩ := List.mem_getLast?_eq_getLast (x := x) hx
        have hxmem : x ∈ b :: l' := hxeq ▸ List.getLast_mem hne
        exact List.rel_of_sorted_cons hs x hxmem
      · exact ih hs.of_cons x hx t ht'

/-- Claim C3: the classification ladder of `app.py` agrees with the
spec's ordered threshold table (top-down, inclusive lower bounds,
first match wins); exactly 4.5 maps to First Class Honours and
4.49999 to Second Class (Upper); and for every non-empty ledger the
classification reads the cumulative GPA of the last per-term summary
in ascending term order (its term is maximal). -/
theorem honours_classification (df : List Row) (hdf : df ≠ []) :
    (∀ q : ℚ, classLabel (.val q) = specClassify q) ∧
    classLabel (.val (9/2)) = .firstClassHonours ∧
    classLabel (.val (449999/100000)) = .secondUpper ∧
    ∃ s : TermSummary, (summarize df).getLast? = some s ∧
      currentClassification df = some (classLabel s.cumGpa) ∧
      ∀ t ∈ df.map (fun r => r.semester), t ≤ s.semester := by
  refine ⟨classLabel_eq_specClassify, ?_, ?_, ?_⟩
  · simp [classLabel, PFloat.geq]
  · have h1 : ¬ ((9/2 : ℚ) ≤ 449999/100000) := by norm_num
    have h2 : (4 : ℚ) ≤ 449999/100000 := by norm_num
    simp [classLabel, PFloat.geq, h1, h2]
  · have hne := summarize_ne_nil hdf
    cases hlast : (summarize df).getLast? with
    | none => exact absurd (List.getLast?_eq_none_iff.mp hlast) hne
    | some s =>
      refine ⟨s, rfl, ?_, ?_⟩
      · rw [currentClassification, hlast]
        rfl
      · intro t ht
        have hsem : ((summarize df).map (fun u => u.semester)).getLast? = some s.semester := by
          rw [List.getLast?_map, hlast]
          rfl
        have hmap := mkSummaries_map_semester df (sortedTerms df) 0 0
        simp only [summarize] at hsem
        rw [hmap] at hsem
        exact sorted_all_le_getLast _ (sortedTerms_sorted df) _ hsem t
          ((mem_sortedTerms df t).mpr ht)

theorem honours_classification_witness :
    (∀ q : ℚ, classLabel (.val q) = specClassify q) ∧
    classLabel (.val (9/2)) = .firstClassHonours ∧
    classLabel (.val (449999/100000)) = .secondUpper ∧
    ∃ s : TermSummary, (summarize [(⟨"CS1010", 1, "A", 4, false⟩ : Row)]).getLast? = some s ∧
      currentClassification [(⟨"CS1010", 1, "A", 4, false⟩ : Row)] = some (classLabel s.cumGpa) ∧
      ∀ t ∈ [(⟨"CS1010", 1, "A", 4, false⟩ : Row)].map (fun r => r.semester), t ≤ s.semester :=
  honours_classification [⟨"CS1010", 1, "A", 4, false⟩] (by simp)

/-- Claim C10: the add callback appends exactly one row at the end of
the ledger, leaves every pre-existing row unchanged at its original
position, and fills the Course field with the typed name when
non-empty, else with the current (non-empty) catalog-search selection,
else with the literal "Unknown Course". -/
theorem add_course_appends (courses : List Row) (fs : FormState) :
    (add_course_callback courses fs).1 =
      courses ++ [{ course := final_name fs,
                    semester := (sem_mapping fs.sem_input_label).getD 1,
                    grade := fs.grade_input, credits := fs.credits_input,
                    su_opt_out := fs.su_input }] ∧
    (add_course_callback courses fs).1.length = courses.length + 1 ∧
    (∀ i : ℕ, i < courses.length → (add_course_callback courses fs).1[i]? = courses[i]?) ∧
    (fs.course_name_input = "" → fs.search_selection = none →
      final_name fs = "Unknown Course") ∧
    (fs.course_name_input = "" → ∀ s, fs.search_selection = some s → s ≠ "" →
      final_name fs = s) ∧
    (fs.course_name_input ≠ "" → final_name fs = fs.course_name_input) := by
  refine ⟨rfl, by simp [add_course_callback], ?_, ?_, ?_, ?_⟩
  · intro i hi
    show (courses ++ [_])[i]? = courses[i]?
    rw [List.getElem?_append, if_pos hi]
  · intro h1 h2
    simp [final_name, h1, h2]
  · intro h1 s h2 h3
    simp [final_name, h1, h2, h3]
  · intro h1
    simp [final_name, h1]

theorem add_course_appends_witness :
    (add_course_callback [(⟨"GEA1000", 1, "B", 4, false⟩ : Row)] wFs10).1 =
      [(⟨"GEA1000", 1, "B", 4, false⟩ : Row)] ++
        [{ course := final_name wFs10,
           semester := (sem_mapping wFs10.sem_input_label).getD 1,
           grade := wFs10.grade_input, credits := wFs10.credits_input,
           su_opt_out := wFs10.su_input }] ∧
    final_name wFs10 = "CS1010: Programming Methodology" :=
  ⟨(add_course_appends [(⟨"GEA1000", 1, "B", 4, false⟩ : Row)] wFs10).1,
   (add_course_appends [(⟨"GEA1000", 1, "B", 4, false⟩ : Row)] wFs10).2.2.2.2.1 rfl
     "CS1010: Programming Methodology" rfl (by decide)⟩

/-- Claim C6: an import source fails if and only if one of the five
required columns is missing; on failure the import reports an error
(`none`) and the ledger is unchanged, and on success (in particular in
the presence of unexpected extra columns, which are never a reason to
reject) the whole upload is loaded. -/
theorem import_missing_columns (ledger : List (String × List Cell))
    (doc : List (String × List String)) :
    (hasRequired doc = false ↔ ∃ c ∈ REQUIRED_COLUMNS, c ∉ doc.map Prod.fst) ∧
    (hasRequired doc = false → importCsv doc = none ∧ uploadHandler ledger doc = ledger) ∧
    (hasRequired doc = true → importCsv doc = some (importedDF doc) ∧
      uploadHandler ledger doc = importedDF doc) := by
  refine ⟨?_, ?_, ?_⟩
  · rw [← Bool.not_eq_true, hasRequired]
    simp [List.all_eq_true, List.elem_iff]
  · intro h
    simp [importCsv, uploadHandler, h]
  · intro h
    simp [importCsv, uploadHandler, h]

theorem import_missing_columns_witness :
    importCsv cexDoc6 = none ∧ uploadHandler [] cexDoc6 = [] :=
  (import_missing_columns [] cexDoc6).2.1 (by decide)

/-- Claim C5, counterexample: the claim says the bulk import rejects
any row with negative credits or an unrecognized grade, but an upload
whose single row has grade "ZZ" and credits -3.0 is accepted: the
upload goes through and replaces the ledger with that row. -/
theorem replace_all_no_row_validation_counterexample :
    grade_map "ZZ" = none ∧ ((-3 : ℚ) < 0) ∧
    importCsv cexDoc5 =
      some [("Course", [.str "X1"]), ("Semester", [.intv 1]), ("Grade", [.str "ZZ"]),
            ("Credits", [.floatv (-3)]), ("SU_Opt_Out", [.boolv false])] ∧
    uploadHandler [] cexDoc5 ≠ [] := by
  refine ⟨rfl, by norm_num, ?_, ?_⟩ <;>
    simp [cexDoc5, importCsv, importedDF, hasRequired, REQUIRED_COLUMNS, inferCol,
      parseIntL, parseNatL, digitsVal, parseFloatL, breakDot, astypeBool, uploadHandler]

/-- Claim C5, amended: the bulk import validates only the presence of
the five required columns and performs no per-row validation; the swap
is atomic in that a failed column check leaves the ledger unchanged
and a successful one replaces it wholesale with the parsed upload. -/
theorem replace_all_column_check_only (ledger : List (String × List Cell))
    (doc : List (String × List String)) :
    (hasRequired doc = true → uploadHandler ledger doc = importedDF doc) ∧
    (hasRequired doc = false → uploadHandler ledger doc = ledger) := by
  constructor
  · intro h
    simp [uploadHandler, importCsv, h]
  · intro h
    simp [uploadHandler, importCsv, h]

theorem replace_all_column_check_only_witness :
    uploadHandler [] cexDoc5 = importedDF cexDoc5 :=
  (replace_all_column_check_only [] cexDoc5).1 (by decide)

lemma digitChar_isDigit : ∀ m : ℕ, m < 10 → (Nat.digitChar m).isDigit = true := by decide

lemma digitChar_toNat : ∀ m : ℕ, m < 10 → (Nat.digitChar m).toNat - 48 = m := by decide

lemma digitsVal_append_singleton (l : List Char) (c : Char) :
    digitsVal (l ++ [c]) = 10 * digitsVal l + (c.toNat - 48) := by
  simp [digitsVal, List.foldl_append]

lemma natDigitsRevAux_spec :
    ∀ (fuel n : ℕ), n ≤ fuel →
      (natDigitsRevAux fuel n).all (fun c => c.isDigit) = true ∧
      natDigitsRevAux fuel n ≠ [] ∧
      digitsVal (natDigitsRevAux fuel n).reverse = n := by
  intro fuel
  induction fuel with
  | zero =>
    intro n hn
    have hn0 : n = 0 := Nat.le_zero.mp hn
    subst hn0
    exact ⟨by decide, by decide, by decide⟩
  | succ fuel ih =>
    intro n hn
    rw [natDigitsRevAux]
    by_cases h10 : n < 10
    · rw [if_pos h10]
      refine ⟨by simp [digitChar_isDigit n h10], by simp, ?_⟩
      simp [digitsVal, digitChar_toNat n h10]
    · rw [if_neg h10]
      have hfuel : n / 10 ≤ fuel := by
        have : n / 10 < n := Nat.div_lt_self (by omega) (by omega)
        omega
      obtain ⟨ha, hne, hv⟩ := ih (n / 10) hfuel
      refine ⟨?_, by simp, ?_⟩
      · simp [List.all_cons, ha, digitChar_isDigit (n % 10) (Nat.mod_lt n (by omega))]
      · rw [List.reverse_cons, digitsVal_append_singleton, hv,
          digitChar_toNat (n % 10) (Nat.mod_lt n (by omega))]
        omega

lemma natDigitsRevAux_length :
    ∀ (fuel n e : ℕ), n ≤ fuel → n < 10 ^ e → 1 ≤ e →
      (natDigitsRevAux fuel n).length ≤ e := by
  intro fuel
  induction fuel with
  | zero =>
    intro n e hn _ he
    have hn0 : n = 0 := Nat.le_zero.mp hn
    subst hn0
    simpa [natDigitsRevAux] using he
  | succ fuel ih =>
    intro n e hn hlt he
    rw [natDigitsRevAux]
    by_cases h10 : n < 10
    · rw [if_pos h10]
      simpa using he
    · rw [if_neg h10]
      have he2 : 2 ≤ e := by
        by_contra hcon
        have he1 : e = 1 := by omega
        rw [he1] at hlt
        simp at hlt
        omega
      have hfuel : n / 10 ≤ fuel := by
        have : n / 10 < n := Nat.div_lt_self (by omega) (by omega)
        omega
      have hlt' : n / 10 < 10 ^ (e - 1) := by
        have hpow : 10 ^ e = 10 ^ (e - 1) * 10 := by
          rw [← pow_succ]
          congr 1
          omega
        rw [Nat.div_lt_iff_lt_mul (by omega)]
        omega
      have := ih (n / 10) (e - 1) hfuel hlt' (by omega)
      simp only [List.length_cons]
      omega

lemma parseNatL_natRepr (n : ℕ) : parseNatL (natRepr n) = some n := by
  obtain ⟨ha, hne, hv⟩ := natDigitsRevAux_spec n n (le_refl n)
  rw [natRepr, natDigitsRev, parseNatL, if_pos, hv]
  rw [Bool.and_eq_true, List.all_reverse]
  refine ⟨?_, ha⟩
  simpa using hne

lemma isDigit_ne_minus {c : Char} (h : c.isDigit = true) : c ≠ '-' := by
  intro hc
  subst hc
  simp at h

lemma isDigit_ne_dot {c : Char} (h : c.isDigit = true) : c ≠ '.' := by
  intro hc
  subst hc
  simp at h

lemma natRepr_head_digit (n : ℕ) :
    ∃ c l, natRepr n = c :: l ∧ c.isDigit = true := by
  obtain ⟨ha, hne, -⟩ := natDigitsRevAux_spec n n (le_refl n)
  have hne' : natRepr n ≠ [] := by
    rw [natRepr, natDigitsRev]
    simpa using hne
  cases hr : natRepr n with
  | nil => exact absurd hr hne'
  | cons c l =>
    refine ⟨c, l, rfl, ?_⟩
    have hc : c ∈ natRepr n := by
      rw [hr]
      exact List.mem_cons_self c l
    rw [natRepr, List.mem_reverse] at hc
    exact List.all_eq_true.mp ha c hc

lemma parseIntL_intRepr (n : Int) : parseIntL (intRepr n).data = some n := by
  by_cases hneg : n < 0
  · rw [intRepr, if_pos hneg]
    show parseIntL ('-' :: natRepr n.natAbs) = some n
    rw [parseIntL]
    simp only [List.head?_cons, List.tail_cons, if_pos rfl]
    rw [parseNatL_natRepr]
    simp
    rw [abs_of_neg hneg, neg_neg]
  · rw [intRepr, if_neg hneg]
    show parseIntL (natRepr n.natAbs) = some n
    obtain ⟨c, l, hcl, hdig⟩ := natRepr_head_digit n.natAbs
    rw [parseIntL, hcl]
    simp only [List.head?_cons]
    have hcne : ¬ (some c = some '-') := by
      simp [isDigit_ne_minus hdig]
    rw [if_neg hcne, ← hcl, parseNatL_natRepr]
    simp
    omega

lemma breakDot_no_dot (a : List Char) (b : List Char) (ha : '.' ∉ a) :
    breakDot (a ++ '.' :: b) = (a, some b) := by
  induction a with
  | nil => simp [breakDot]
  | cons c a ih =>
    have hc : ¬ (c = '.') := fun h => ha (h ▸ List.mem_cons_self c a)
    have ih' := ih (fun h => ha (List.mem_cons_of_mem c h))
    simp only [List.cons_append, breakDot, if_neg hc]
    rw [show a.append ('.' :: b) = a ++ '.' :: b from rfl, ih']

lemma digitsVal_replicate_append (k : ℕ) (l : List Char) :
    digitsVal (List.replicate k '0' ++ l) = digitsVal l := by
  induction k with
  | zero => rfl
  | succ k ih =>
    rw [List.replicate_succ, List.cons_append]
    have h0 : (10 * 0 + ('0'.toNat - 48)) = 0 := by decide
    show List.foldl _ (10 * 0 + ('0'.toNat - 48)) (List.replicate k '0' ++ l) = _
    rw [h0]
    exact ih

lemma padZeros_spec (l : List Char) (e : ℕ) (hl : l.all (fun c => c.isDigit) = true)
    (hlen : l.length ≤ e) :
    (padZeros l e).all (fun c => c.isDigit) = true ∧
    (padZeros l e).length = e ∧
    digitsVal (padZeros l e) = digitsVal l := by
  refine ⟨?_, ?_, digitsVal_replicate_append _ l⟩
  · rw [padZeros, List.all_append, hl, Bool.and_true]
    rw [List.all_eq_true]
    intro c hc
    rw [List.eq_of_mem_replicate hc]
    decide
  · rw [padZeros, List.length_append, List.length_replicate]
    omega

lemma decimal_value_abs (q : ℚ) (e : ℕ) (hdvd : q.den ∣ 10 ^ e) :
    (↑(q.num.natAbs * (10 ^ e / q.den) / 10 ^ e) : ℚ) +
      (↑(q.num.natAbs * (10 ^ e / q.den) % 10 ^ e) : ℚ) / 10 ^ e =
    (q.num.natAbs : ℚ) / q.den := by
  set m := q.num.natAbs * (10 ^ e / q.den) with hm
  have h10 : (0:ℚ) < 10 ^ e := by positivity
  have hden : (q.den : ℚ) ≠ 0 := by exact_mod_cast q.den_nz
  have hcomb : (↑(m / 10 ^ e) : ℚ) + (↑(m % 10 ^ e) : ℚ) / 10 ^ e = (m : ℚ) / 10 ^ e := by
    rw [eq_div_iff (ne_of_gt h10), add_mul, div_mul_cancel₀ _ (ne_of_gt h10)]
    have hnat : (m / 10 ^ e) * 10 ^ e + m % 10 ^ e = m := Nat.div_add_mod' m (10 ^ e)
    calc (↑(m / 10 ^ e) : ℚ) * 10 ^ e + ↑(m % 10 ^ e)
        = ↑((m / 10 ^ e) * 10 ^ e + m % 10 ^ e) := by push_cast; ring
      _ = ↑m := by rw [hnat]
  rw [hcomb, hm, Nat.cast_mul, Nat.cast_div hdvd hden]
  push_cast
  field_simp
  ring

lemma all_digits_no_dot {l : List Char} (h : l.all (fun c => c.isDigit) = true) :
    '.' ∉ l := by
  intro hmem
  have := List.all_eq_true.mp h _ hmem
  simp at this

lemma parseFloatL_pos_shape (ip fp : List Char) (hipne : ip ≠ [])
    (hipd : ip.all (fun c => c.isDigit) = true)
    (hfpd : fp.all (fun c => c.isDigit) = true) :
    parseFloatL (ip ++ '.' :: fp) =
      some ((digitsVal ip : ℚ) + (digitsVal fp : ℚ) / 10 ^ fp.length) := by
  obtain ⟨c, rest, hcl⟩ := List.exists_cons_of_ne_nil hipne
  have hcd : c.isDigit = true := by
    apply List.all_eq_true.mp hipd
    rw [hcl]
    exact List.mem_cons_self c rest
  have hsign : ¬ ((ip ++ '.' :: fp).head? = some '-') := by
    rw [hcl]
    simp [isDigit_ne_minus hcd]
  have hbd : breakDot (ip ++ '.' :: fp) = (ip, some fp) :=
    breakDot_no_dot ip fp (all_digits_no_dot hipd)
  have hipe : ip.isEmpty = false := by
    rw [hcl]
    rfl
  rw [parseFloatL]
  simp only [if_neg hsign, hbd, hipd, hfpd, hipe, Bool.and_true, Bool.true_and,
    Bool.false_and, Bool.not_false, if_pos]

lemma parseFloatL_neg_shape (ip fp : List Char) (hipne : ip ≠ [])
    (hipd : ip.all (fun c => c.isDigit) = true)
    (hfpd : fp.all (fun c => c.isDigit) = true) :
    parseFloatL ('-' :: (ip ++ '.' :: fp)) =
      some (-((digitsVal ip : ℚ) + (digitsVal fp : ℚ) / 10 ^ fp.length)) := by
  have hbd : breakDot (ip ++ '.' :: fp) = (ip, some fp) :=
    breakDot_no_dot ip fp (all_digits_no_dot hipd)
  have hipe : ip.isEmpty = false := by
    obtain ⟨c, rest, hcl⟩ := List.exists_cons_of_ne_nil hipne
    rw [hcl]
    rfl
  rw [parseFloatL]
  simp only [List.head?_cons, List.tail_cons, if_pos rfl, hbd, hipd, hfpd, hipe,
    Bool.and_true, Bool.true_and, Bool.false_and, Bool.not_false, if_pos]

lemma parseFloatL_floatRepr (q : ℚ) (hd : IsDecimal q) :
    parseFloatL (floatRepr q).data = some q := by
  set e := max (decExp q.den) 1 with he
  have he1 : 1 ≤ e := le_max_right _ _
  have hdvd : q.den ∣ 10 ^ e := dvd_trans hd (pow_dvd_pow 10 (le_max_left _ _))
  set m := q.num.natAbs * (10 ^ e / q.den) with hm
  set ip := natRepr (m / 10 ^ e) with hip
  set fp := padZeros (natRepr (m % 10 ^ e)) e with hfp
  obtain ⟨hipd0, hipne0, hipv⟩ := natDigitsRevAux_spec (m / 10 ^ e) (m / 10 ^ e) (le_refl _)
  have hipd : ip.all (fun c => c.isDigit) = true := by
    rw [hip, natRepr, natDigitsRev, List.all_reverse]
    exact hipd0
  have hipne : ip ≠ [] := by
    rw [hip, natRepr, natDigitsRev]
    simpa using hipne0
  have hipval : digitsVal ip = m / 10 ^ e := hipv
  obtain ⟨hfpd0, -, hfpv0⟩ := natDigitsRevAux_spec (m % 10 ^ e) (m % 10 ^ e) (le_refl _)
  have hmlt : m % 10 ^ e < 10 ^ e := Nat.mod_lt _ (by positivity)
  have hlen0 : (natRepr (m % 10 ^ e)).length ≤ e := by
    rw [natRepr, List.length_reverse]
    exact natDigitsRevAux_length _ _ e (le_refl _) hmlt he1
  have hnd0 : (natRepr (m % 10 ^ e)).all (fun c => c.isDigit) = true := by
    rw [natRepr, natDigitsRev, List.all_reverse]
    exact hfpd0
  obtain ⟨hfpd, hfplen, hfpval0⟩ := padZeros_spec (natRepr (m % 10 ^ e)) e hnd0 hlen0
  have hfpval : digitsVal fp = m % 10 ^ e := by
    rw [hfp, hfpval0, natRepr, natDigitsRev]
    exact hfpv0
  have hdata : (floatRepr q).data = ((if q.num < 0 then ['-'] else []) ++ ip) ++ '.' :: fp :=
    rfl
  by_cases hneg : q.num < 0
  · rw [hdata, if_pos hneg, List.singleton_append, List.cons_append,
      parseFloatL_neg_shape ip fp hipne hipd hfpd,
      hipval, hfpval, hfplen, decimal_value_abs q e hdvd]
    have hnum : ((q.num.natAbs : ℚ)) = -(q.num : ℚ) := by
      calc ((q.num.natAbs : ℚ)) = |(q.num : ℚ)| := by rw [Int.cast_natAbs, Int.cast_abs]
        _ = -(q.num : ℚ) := abs_of_neg (by exact_mod_cast hneg)
    rw [hnum, neg_div, neg_neg, Rat.num_div_den]
  · rw [hdata, if_neg hneg, List.nil_append, parseFloatL_pos_shape ip fp hipne hipd hfpd,
      hipval, hfpval, hfplen, decimal_value_abs q e hdvd]
    have hnum : ((q.num.natAbs : ℚ)) = (q.num : ℚ) := by
      calc ((q.num.natAbs : ℚ)) = |(q.num : ℚ)| := by rw [Int.cast_natAbs, Int.cast_abs]
        _ = (q.num : ℚ) := abs_of_nonneg (by exact_mod_cast (not_lt.mp hneg))
    rw [hnum, Rat.num_div_den]

lemma parseNatL_of_dot {l : List Char} (h : '.' ∈ l) : parseNatL l = none := by
  have hall : l.all (fun c => c.isDigit) ≠ true := by
    intro hall
    have hd := List.all_eq_true.mp hall _ h
    simp at hd
  rw [parseNatL, if_neg]
  intro hcond
  rw [Bool.and_eq_true] at hcond
  exact hall hcond.2

lemma parseIntL_floatRepr (q : ℚ) : parseIntL (floatRepr q).data = none := by
  have hdot : '.' ∈ (floatRepr q).data := by
    show '.' ∈ (_ ++ _) ++ '.' :: _
    simp
  rw [parseIntL]
  by_cases hh : (floatRepr q).data.head? = some '-'
  · obtain ⟨t, hlt⟩ : ∃ t, (floatRepr q).data = '-' :: t := by
      cases hl : (floatRepr q).data with
      | nil => rw [hl] at hh; simp at hh
      | cons c t =>
        rw [hl] at hh
        simp at hh
        exact ⟨t, by rw [hh]⟩
    have hdott : '.' ∈ t := by
      rw [hlt] at hdot
      rcases List.mem_cons.mp hdot with hcon | hmem
      · exact absurd hcon (by decide)
      · exact hmem
    rw [if_pos hh, hlt, List.tail_cons, parseNatL_of_dot hdott]
    rfl
  · rw [if_neg hh, parseNatL_of_dot hdot]
    rfl

lemma lookup_isSome_mem (l : List (String × ℚ)) (a : String)
    (h : (l.lookup a).isSome = true) : a ∈ l.map Prod.fst := by
  induction l with
  | nil => simp [List.lookup] at h
  | cons p l ih =>
    rw [List.lookup] at h
    cases hbeq : (a == p.1) with
    | true =>
      have hpa : a = p.1 := eq_of_beq hbeq
      rw [List.map_cons, ← hpa]
      exact List.mem_cons_self a _
    | false =>
      rw [hbeq] at h
      exact List.mem_cons_of_mem _ (ih h)

lemma gradeKeys_not_numeric_aux :
    ∀ g ∈ grade_pairs.map Prod.fst,
      parseIntL g.data = none ∧ parseFloatL g.data = none ∧
      (g == "True" || g == "False") = false := by
  decide

lemma gradeKeys_not_numeric {g : String} (hg : (grade_map g).isSome = true) :
    parseIntL g.data = none ∧ parseFloatL g.data = none ∧
    (g == "True" || g == "False") = false :=
  gradeKeys_not_numeric_aux g (lookup_isSome_mem grade_pairs g hg)

lemma boolStr_spec (b : Bool) :
    parseIntL (if b then "True" else "False").data = none ∧
    parseFloatL (if b then "True" else "False").data = none ∧
    ((if b then "True" else "False") == "True" ||
      (if b then "True" else "False") == "False") = true ∧
    (((if b then "True" else "False") == "True") = b) := by
  cases b
  · exact (by decide)
  · exact (by decide)

lemma all_false_of_mem {α : Type} {l : List α} {p : α → Bool} {x : α} (hx : x ∈ l)
    (hp : p x = false) : l.all p = false := by
  cases hall : l.all p
  · rfl
  · have hcon := List.all_eq_true.mp hall x hx
    rw [hp] at hcon
    cases hcon

/-- Claim C9, amended: export followed by re-import is lossless for
every well-formed ledger whose Course column does not re-import as a
numeric or boolean column and has no empty name: the import succeeds
and reproduces the original dataframe exactly, whatever the previous
ledger was. -/
theorem export_import_roundtrip (df : List Row) (hw : ∀ r ∈ df, wellFormedRow r)
    (hc : courseColOk (df.map (fun r => r.course))) :
    importCsv (exportCsv (toDF df)) = some (toDF df) ∧
    ∀ prev, uploadHandler prev (exportCsv (toDF df)) = toDF df := by
  obtain ⟨hcint, hcfloat, hcbool, -⟩ := hc
  have hex : ∃ r0, r0 ∈ df := by
    cases df with
    | nil => simp at hcint
    | cons a l => exact ⟨a, List.mem_cons_self a l⟩
  obtain ⟨r0, hr0⟩ := hex
  have hexp : exportCsv (toDF df) =
      [("Course", df.map (fun r => r.course)),
       ("Semester", df.map (fun r => intRepr r.semester)),
       ("Grade", df.map (fun r => r.grade)),
       ("Credits", df.map (fun r => floatRepr r.credits)),
       ("SU_Opt_Out", df.map (fun r => if r.su_opt_out then "True" else "False"))] := by
    simp only [exportCsv, toDF, List.map_cons, List.map_nil, List.map_map]
    rfl
  have hCourse : inferCol (df.map (fun r => r.course)) =
      df.map (fun r => Cell.str r.course) := by
    rw [inferCol, if_neg (by simp [hcint]), if_neg (by simp [hcfloat]),
      if_neg (by simp [hcbool]), List.map_map]
    rfl
  have hSemAll : (df.map (fun r => intRepr r.semester)).all
      (fun s => (parseIntL s.data).isSome) = true := by
    rw [List.all_eq_true]
    intro s hs
    obtain ⟨r, hr, rfl⟩ := List.mem_map.mp hs
    rw [parseIntL_intRepr]
    rfl
  have hSem : inferCol (df.map (fun r => intRepr r.semester)) =
      df.map (fun r => Cell.intv r.semester) := by
    rw [inferCol, if_pos hSemAll, List.map_map]
    apply List.map_eq_map_iff.mpr
    intro r hr
    simp [Function.comp, parseIntL_intRepr]
  have hg0 := gradeKeys_not_numeric (hw r0 hr0).2.1
  have hGrade : inferCol (df.map (fun r => r.grade)) =
      df.map (fun r => Cell.str r.grade) := by
    have h1 : (df.map (fun r => r.grade)).all (fun s => (parseIntL s.data).isSome) = false :=
      all_false_of_mem (List.mem_map_of_mem _ hr0) (by rw [hg0.1]; rfl)
    have h2 : (df.map (fun r => r.grade)).all (fun s => (parseFloatL s.data).isSome) = false :=
      all_false_of_mem (List.mem_map_of_mem _ hr0) (by rw [hg0.2.1]; rfl)
    have h3 : (df.map (fun r => r.grade)).all (fun s => s == "True" || s == "False") = false :=
      all_false_of_mem (List.mem_map_of_mem _ hr0) hg0.2.2
    rw [inferCol, if_neg (by simp [h1]), if_neg (by simp [h2]), if_neg (by simp [h3]),
      List.map_map]
    rfl
  have hCred : inferCol (df.map (fun r => floatRepr r.credits)) =
      df.map (fun r => Cell.floatv r.credits) := by
    have h1 : (df.map (fun r => floatRepr r.credits)).all
        (fun s => (parseIntL s.data).isSome) = false :=
      all_false_of_mem (List.mem_map_of_mem _ hr0) (by rw [parseIntL_floatRepr]; rfl)
    have h2 : (df.map (fun r => floatRepr r.credits)).all
        (fun s => (parseFloatL s.data).isSome) = true := by
      rw [List.all_eq_true]
      intro s hs
      obtain ⟨r, hr, rfl⟩ := List.mem_map.mp hs
      rw [parseFloatL_floatRepr r.credits (hw r hr).2.2]
      rfl
    rw [inferCol, if_neg (by simp [h1]), if_pos h2, List.map_map]
    apply List.map_eq_map_iff.mpr
    intro r hr
    simp [Function.comp, parseFloatL_floatRepr r.credits (hw r hr).2.2]
  have hb0 := boolStr_spec r0.su_opt_out
  have hSu : (inferCol (df.map (fun r => if r.su_opt_out then "True" else "False"))).map
      astypeBool = df.map (fun r => Cell.boolv r.su_opt_out) := by
    have h1 : (df.map (fun r => if r.su_opt_out then "True" else "False")).all
        (fun s => (parseIntL s.data).isSome) = false :=
      all_false_of_mem (List.mem_map_of_mem _ hr0) (by rw [hb0.1]; rfl)
    have h2 : (df.map (fun r => if r.su_opt_out then "True" else "False")).all
        (fun s => (parseFloatL s.data).isSome) = false :=
      all_false_of_mem (List.mem_map_of_mem _ hr0) (by rw [hb0.2.1]; rfl)
    have h3 : (df.map (fun r => if r.su_opt_out then "True" else "False")).all
        (fun s => s == "True" || s == "False") = true := by
      rw [List.all_eq_true]
      intro s hs
      obtain ⟨r, hr, rfl⟩ := List.mem_map.mp hs
      exact (boolStr_spec r.su_opt_out).2.2.1
    rw [inferCol, if_neg (by simp [h1]), if_neg (by simp [h2]), if_pos h3,
      List.map_map, List.map_map]
    apply List.map_eq_map_iff.mpr
    intro r hr
    simp [Function.comp, astypeBool, (boolStr_spec r.su_opt_out).2.2.2]
  have himp : importedDF (exportCsv (toDF df)) = toDF df := by
    rw [hexp]
    simp only [importedDF, List.map_cons, List.map_nil]
    rw [if_neg (show ¬ ("Course" = "SU_Opt_Out") by decide),
      if_neg (show ¬ ("Semester" = "SU_Opt_Out") by decide),
      if_neg (show ¬ ("Grade" = "SU_Opt_Out") by decide),
      if_neg (show ¬ ("Credits" = "SU_Opt_Out") by decide),
      if_pos trivial,
      hCourse, hSem, hGrade, hCred, hSu]
    rfl
  have hreq : hasRequired (exportCsv (toDF df)) = true := by
    rw [hexp]
    rfl
  have hok : importCsv (exportCsv (toDF df)) = some (toDF df) := by
    rw [importCsv, if_pos hreq, himp]
  exact ⟨hok, fun prev => by rw [uploadHandler, hok]; rfl⟩

/-- Claim C9, counterexample: the claim says export followed by
re-import is lossless for every well-formed ledger, but a ledger whose
only course name is the digit string "123" re-imports with an integer
cell 123 in the Course column (pandas type inference), so the
round-tripped ledger differs from the original. -/
theorem roundtrip_counterexample :
    importCsv (exportCsv (toDF cexDf9)) =
      some [("Course", [.intv 123]), ("Semester", [.intv 1]), ("Grade", [.str "A"]),
            ("Credits", [.floatv 4]), ("SU_Opt_Out", [.boolv false])] ∧
    uploadHandler (toDF cexDf9) (exportCsv (toDF cexDf9)) ≠ toDF cexDf9 := by
  constructor <;>
    simp [cexDf9, uploadHandler, importCsv, importedDF, hasRequired, REQUIRED_COLUMNS,
      exportCsv, toDF, cellToCsv, intRepr, natRepr, natDigitsRev, natDigitsRevAux,
      floatRepr, decExp, countFacAux, padZeros, inferCol, parseIntL, parseNatL, digitsVal,
      parseFloatL, breakDot, astypeBool, Nat.digitChar]

theorem export_import_roundtrip_witness :
    importCsv (exportCsv (toDF wDf9)) = some (toDF wDf9) ∧
    ∀ prev, uploadHandler prev (exportCsv (toDF wDf9)) = toDF wDf9 :=
  export_import_roundtrip wDf9 (by decide) (by decide)
